import Mathlib

/-!
Shallow embedding of `src/fish_vocoder/models/hifigan.py` (HiFiGANModel):
the adversarial training/validation step protocol and the static loss
utilities.  Tensors are modelled as nested lists of rationals; the external
collaborators (mel transforms, generator, discriminators, STFT loss) are
opaque function fields of the model structure.  The training and validation
steps are modelled as functions that return the sequence of observable
events (gradient resets, metric logs, backward calls, optimizer steps,
scheduler steps) together with an optional error mirroring Python
`AssertionError` / `ZeroDivisionError`.
-/

namespace FishVocoder

/-- A 1-d tensor of values (e.g. a flattened discriminator score tensor). -/
abbrev T1 := List ℚ

/-- A 2-d tensor (e.g. a batch of waveforms, or mel features). -/
abbrev T2 := List T1

/-- A 3-d tensor (batch × channel × time audio). -/
abbrev T3 := List T2

/-- `torch.mean` of a flattened tensor: sum of elements divided by count. -/
def tmean (l : T1) : ℚ := l.sum / l.length

/-- `x.squeeze(1)` on a batch × channel(1) × time tensor: drop the channel axis. -/
def squeeze1 (x : T3) : T2 := x.map (fun c => c.headD [])

/-- `x.shape[2]` (equivalently `x.shape[-1]`): the time dimension of a 3-d tensor. -/
def timeDim (x : T3) : ℕ := ((x.headD []).headD []).length

/-- The shape of a 3-d tensor, as the nested list of row lengths; two tensors
have equal `.shape` tuples iff these agree (for rectangular tensors). -/
def shape3 (x : T3) : List (List ℕ) := x.map (fun c => c.map List.length)

/-- `x[..., s : s + len]`: slice the last (time) dimension. -/
def slice3 (s len : ℕ) (x : T3) : T3 :=
  x.map (fun c => c.map (fun t => (t.drop s).take len))

/-- Elementwise product `x * mask` where `mask` has shape batch × 1 × time and
broadcasts over the channel dimension of `x`. -/
def maskMul (x m : T3) : T3 :=
  List.zipWith (fun cs mr => cs.map (fun ch => List.zipWith (fun a b => a * b) ch (mr.headD []))) x m

/-- `F.l1_loss` between two 1-d tensors: mean absolute difference. -/
def l1_loss1 (a b : T1) : ℚ := tmean ((a.zip b).map (fun q => |q.1 - q.2|))

/-- `F.l1_loss` between two 2-d tensors: mean absolute difference over all elements. -/
def l1_loss2 (a b : T2) : ℚ :=
  tmean (((a.zip b).map (fun p => (p.1.zip p.2).map (fun q => |q.1 - q.2|))).flatten)

/-- Modelled from the spec: `sequence_mask` (from `fish_vocoder/utils/mask.py`,
not among the provided sources).  Per the spec, given the valid-length vector
`lengths` and the time dimension `T` of the audio, the mask is 1.0 exactly at
positions `< length` and 0.0 elsewhere, one row per batch element, with the
same time dimension as the audio. -/
def sequence_mask (lengths : List ℕ) (T : ℕ) : T2 :=
  lengths.map (fun L => (List.range T).map (fun i => if i < L then (1 : ℚ) else 0))

/-- `HiFiGANModel.discriminator_loss`: pairwise least-squares loss over the
zip of real/generated discriminator outputs; returns the accumulated total
plus the per-pair real and fake loss values. -/
def discriminator_loss (disc_real_outputs disc_generated_outputs : List T1) :
    ℚ × List ℚ × List ℚ :=
  let pairs := disc_real_outputs.zip disc_generated_outputs
  (pairs.foldl
      (fun loss p => loss + tmean (p.1.map (fun x => (1 - x) ^ 2)) + tmean (p.2.map (fun x => x ^ 2)))
      0,
   pairs.map (fun p => tmean (p.1.map (fun x => (1 - x) ^ 2))),
   pairs.map (fun p => tmean (p.2.map (fun x => x ^ 2))))

/-- `HiFiGANModel.generator_loss`: sum of `mean((1 - dg)^2)` over the
discriminator outputs, plus the per-output list. -/
def generator_loss (disc_outputs : List T1) : ℚ × List ℚ :=
  (disc_outputs.foldl (fun loss dg => loss + tmean (dg.map (fun x => (1 - x) ^ 2))) 0,
   disc_outputs.map (fun dg => tmean (dg.map (fun x => (1 - x) ^ 2))))

/-- `HiFiGANModel.feature_matching_loss`: sum of L1 distances between
corresponding feature-map tensors, over the zip of discriminators and, inside
each, the zip of per-layer feature maps. -/
def feature_matching_loss (disc_real_outputs disc_generated_outputs : List T2) : ℚ :=
  (((disc_real_outputs.zip disc_generated_outputs).map
      (fun p => (p.1.zip p.2).map (fun q => l1_loss1 q.1 q.2))).flatten).sum

/-- Observable side effects of a training/validation step, in program order. -/
inductive Event where
  | zeroGradG : Event
  | zeroGradD : Event
  | log (key : String) (value : ℚ) : Event
  | backward (value : ℚ) : Event
  | stepG : Event
  | stepD : Event
  | schedStepG : Event
  | schedStepD : Event
  | reportValMetrics : Event
deriving DecidableEq

/-- Python exceptions that the step code can raise. -/
inductive Err where
  | assertFailed : Err
  | zeroDivisionError : Err
deriving DecidableEq

/-- The `HiFiGANModel` state relevant to the step protocol.  External
collaborators (mel transforms, generator, discriminator ensemble, the
multi-resolution STFT loss) are opaque functions; the discriminator ensemble
is an ordered association list mirroring the stable iteration order of the
`nn.ModuleDict`.  Each discriminator maps a waveform to a score tensor and a
list of intermediate feature maps. -/
structure HiFiGANModel where
  melInput : T2 → T2
  melLoss : T2 → T2
  generator : T2 → T3
  discriminators : List (String × (T3 → T1 × List T1))
  stftLoss : T2 → T2 → ℚ × ℚ
  cropLength : Option ℕ

/-- A training/validation batch: `audio` (batch × channel × time) and the
per-element valid lengths. -/
structure Batch where
  audio : T3
  lengths : List ℕ

/-- The result of a training step: the event trace, the error (if the step
raised), and the intermediate values of the step (meaningful on the paths
that computed them; zero / empty before that point on error paths). -/
structure StepOut where
  events : List Event
  err : Option Err
  lossStft : ℚ
  lossMel : ℚ
  cropStart : Option ℕ
  audioC : T3
  fakeC : T3
  maskC : T3
  lossAdvAll : ℚ
  lossGenAll : ℚ
  lossDiscAll : ℚ
deriving DecidableEq

/-- `sequence_mask(lengths)[:, None, :]`: the float mask as a batch × 1 × time
tensor. -/
def maskOf (batch : Batch) : T3 :=
  (sequence_mask batch.lengths (timeDim batch.audio)).map (fun row => [row])

/-- The optional cropping block of `training_step` (lines 128-135): when a
crop length is configured and the time dimension exceeds it, pick
`slice_idx = torch.randint(0, time - crop_length, (1,))` — modelled as
`r % (time - crop_length)` for the external random draw `r` — slice all three
tensors to `[..., slice_idx : slice_idx + crop_length]`, and assert the
slices have equal shapes. -/
def cropPhase (cropLength : Option ℕ) (r : ℕ) (audio fake_audio audio_mask : T3) :
    Except Unit (Option ℕ × T3 × T3 × T3) :=
  match cropLength with
  | some cl =>
    if timeDim audio > cl then
      let s := r % (timeDim audio - cl)
      let audio2 := slice3 s cl audio
      let fake2 := slice3 s cl fake_audio
      let mask2 := slice3 s cl audio_mask
      if shape3 audio2 = shape3 fake2 ∧ shape3 fake2 = shape3 mask2 then
        Except.ok (some s, audio2, fake2, mask2)
      else
        Except.error ()
    else
      Except.ok (none, audio, fake_audio, audio_mask)
  | none => Except.ok (none, audio, fake_audio, audio_mask)

/-- The per-discriminator adversarial loss of the generator phase:
`mean((1 - score_fake) ** 2)` for one named discriminator applied to the
fake audio. -/
def advTerm (fake2 : T3) (kd : String × (T3 → T1 × List T1)) : ℚ :=
  tmean ((kd.2 fake2).1.map (fun x => (1 - x) ^ 2))

/-- The per-discriminator loss of the discriminator phase:
`mean((score - 1) ** 2) + mean(score_fake ** 2)` for one named discriminator
applied to the real and (detached) fake audio. -/
def discTerm (audio2 fake2 : T3) (kd : String × (T3 → T1 × List T1)) : ℚ :=
  tmean ((kd.2 audio2).1.map (fun x => (x - 1) ^ 2)) +
    tmean ((kd.2 fake2).1.map (fun x => x ^ 2))

/-- The adversarial and discriminator phases of `training_step` (lines
137-201), after masking and optional cropping: per-discriminator adversarial
losses, averaging (raising `ZeroDivisionError` when the ensemble is empty,
as the Python `0 / len({})` does), generator backward and optimizer step,
then the discriminator phase, and finally both scheduler steps. -/
def stepRest (M : HiFiGANModel) (lossStft lossMel : ℚ) (ev : List Event)
    (cropStart : Option ℕ) (audio2 fake2 mask2 : T3) : StepOut :=
  let n := M.discriminators.length
  let advPairs := M.discriminators.map (fun kd => (kd.1, advTerm fake2 kd))
  let ev3 := ev ++ advPairs.map (fun p => Event.log ("train/generator/adv_" ++ p.1) p.2)
  let lossAdvSum := (advPairs.map Prod.snd).foldl (· + ·) 0
  if n = 0 then
    { events := ev3, err := some Err.zeroDivisionError, lossStft := lossStft,
      lossMel := lossMel, cropStart := cropStart, audioC := audio2, fakeC := fake2,
      maskC := mask2, lossAdvAll := 0, lossGenAll := 0, lossDiscAll := 0 }
  else
    let lossAdvAll := lossAdvSum / (n : ℚ)
    let lossGenAll := lossStft * (5 / 2 : ℚ) + lossAdvAll
    let ev4 := ev3 ++ [Event.backward lossGenAll, Event.stepG, Event.zeroGradD]
    let discPairs := M.discriminators.map (fun kd => (kd.1, discTerm audio2 fake2 kd))
    let ev5 := ev4 ++ discPairs.map (fun p => Event.log ("train/discriminator/" ++ p.1) p.2)
    let lossDiscAll := ((discPairs.map Prod.snd).foldl (· + ·) 0) / (n : ℚ)
    let ev6 := ev5 ++ [Event.backward lossDiscAll, Event.stepD,
      Event.log "train/discriminator/all" lossDiscAll, Event.schedStepG, Event.schedStepD]
    { events := ev6, err := none, lossStft := lossStft, lossMel := lossMel,
      cropStart := cropStart, audioC := audio2, fakeC := fake2, maskC := mask2,
      lossAdvAll := lossAdvAll, lossGenAll := lossGenAll, lossDiscAll := lossDiscAll }

/-- `HiFiGANModel.training_step`.  `r` is the external random draw feeding
`torch.randint`.  Mirrors the source: reset generator gradients, synthesize
`fake_audio`, assert shape equality, mask both waveforms, compute and log
the STFT loss, compute and log the (no-gradient) mel loss, optionally crop,
run the adversarial phase, the discriminator phase, and both scheduler
steps. -/
def training_step (M : HiFiGANModel) (batch : Batch) (r : ℕ) : StepOut :=
  let audio := batch.audio
  let audio_mask := maskOf batch
  let ev0 : List Event := [Event.zeroGradG]
  let input_mels := M.melInput (squeeze1 audio)
  let fake_audio := M.generator input_mels
  if shape3 fake_audio = shape3 audio then
    let audio1 := maskMul audio audio_mask
    let fake1 := maskMul fake_audio audio_mask
    let scmag := M.stftLoss (squeeze1 fake1) (squeeze1 audio1)
    let lossStft := scmag.1 + scmag.2
    let ev1 := ev0 ++ [Event.log "train/generator/stft" lossStft]
    let audio_mel := M.melLoss (squeeze1 audio1)
    let fake_audio_mel := M.melLoss (squeeze1 fake1)
    let lossMel := l1_loss2 audio_mel fake_audio_mel
    let ev2 := ev1 ++ [Event.log "train/generator/mel" lossMel]
    match cropPhase M.cropLength r audio1 fake1 audio_mask with
    | Except.error () =>
      { events := ev2, err := some Err.assertFailed, lossStft := lossStft,
        lossMel := lossMel, cropStart := none, audioC := [], fakeC := [], maskC := [],
        lossAdvAll := 0, lossGenAll := 0, lossDiscAll := 0 }
    | Except.ok (cropStart, audio2, fake2, mask2) =>
      stepRest M lossStft lossMel ev2 cropStart audio2 fake2 mask2
  else
    { events := ev0, err := some Err.assertFailed, lossStft := 0, lossMel := 0,
      cropStart := none, audioC := [], fakeC := [], maskC := [],
      lossAdvAll := 0, lossGenAll := 0, lossDiscAll := 0 }

/-- `HiFiGANModel.validation_step`: synthesize, assert shape equality, mask,
compute and log the L1 mel loss (epoch-aggregated), and delegate to the
external validation reporting collaborator.  No optimizer or scheduler
interaction. -/
def validation_step (M : HiFiGANModel) (batch : Batch) : List Event × Option Err :=
  let y := batch.audio
  let y_mask := maskOf batch
  let input_mels := M.melInput (squeeze1 y)
  let y_g_hat := M.generator input_mels
  if shape3 y_g_hat = shape3 y then
    let y2 := maskMul y y_mask
    let yg2 := maskMul y_g_hat y_mask
    let y_mel := M.melLoss (squeeze1 y2)
    let y_g_hat_mel := M.melLoss (squeeze1 yg2)
    let loss_mel := l1_loss2 y_mel y_g_hat_mel
    ([Event.log "val/metrics/mel" loss_mel, Event.reportValMetrics], none)
  else
    ([], some Err.assertFailed)

/-- The values fed to `manual_backward`, in order of occurrence in a trace. -/
def backwards (tr : List Event) : List ℚ :=
  tr.filterMap (fun e => match e with | Event.backward v => some v | _ => none)

/-- Events that step an optimizer or a scheduler. -/
def isOptOrSched : Event → Bool
  | Event.stepG => true
  | Event.stepD => true
  | Event.schedStepG => true
  | Event.schedStepD => true
  | _ => false

/-- Events that touch optimizer or scheduler state at all (gradient resets,
backward accumulation, optimizer steps, scheduler steps). -/
def touchesOptState : Event → Bool
  | Event.zeroGradG => true
  | Event.zeroGradD => true
  | Event.backward _ => true
  | Event.stepG => true
  | Event.stepD => true
  | Event.schedStepG => true
  | Event.schedStepD => true
  | _ => false

/-! ### Observer definitions: intermediate values of `training_step`,
re-derived from the inputs for use in theorem statements. -/

/-- The raw generator output `fake_audio = generator(input_mels)`. -/
def fakeOf (M : HiFiGANModel) (b : Batch) : T3 :=
  M.generator (M.melInput (squeeze1 b.audio))

/-- The masked real audio `audio * audio_mask`. -/
def audio1Of (M : HiFiGANModel) (b : Batch) : T3 :=
  maskMul b.audio (maskOf b)

/-- The masked fake audio `fake_audio * audio_mask`. -/
def fake1Of (M : HiFiGANModel) (b : Batch) : T3 :=
  maskMul (fakeOf M b) (maskOf b)

/-- `loss_stft = sc_loss + mag_loss` on the masked waveforms. -/
def lsOf (M : HiFiGANModel) (b : Batch) : ℚ :=
  (M.stftLoss (squeeze1 (fake1Of M b)) (squeeze1 (audio1Of M b))).1 +
    (M.stftLoss (squeeze1 (fake1Of M b)) (squeeze1 (audio1Of M b))).2

/-- The monitoring-only `loss_mel` on the masked waveforms. -/
def lmOf (M : HiFiGANModel) (b : Batch) : ℚ :=
  l1_loss2 (M.melLoss (squeeze1 (audio1Of M b))) (M.melLoss (squeeze1 (fake1Of M b)))

/-- The events of the generator phase up to and including the mel log. -/
def evPrefix (M : HiFiGANModel) (b : Batch) : List Event :=
  [Event.zeroGradG, Event.log "train/generator/stft" (lsOf M b),
   Event.log "train/generator/mel" (lmOf M b)]

/-- The averaged adversarial loss: accumulated sum over the ensemble divided
by the number of discriminators. -/
def advAll (M : HiFiGANModel) (fake2 : T3) : ℚ :=
  (M.discriminators.map (advTerm fake2)).sum / (M.discriminators.length : ℚ)

/-- The averaged discriminator loss. -/
def discAllOf (M : HiFiGANModel) (audio2 fake2 : T3) : ℚ :=
  (M.discriminators.map (discTerm audio2 fake2)).sum / (M.discriminators.length : ℚ)

/-! ### Concrete witness data: a small model and batch on which the step
protocol runs to completion, plus variants that trip each assertion. -/

/-- A concrete batch: one sample, one channel, three valid time steps. -/
def bW : Batch := { audio := [[[1, 2, 3]]], lengths := [3] }

/-- A concrete model whose generator matches the input shape, with one
discriminator and crop length 2. -/
def mW : HiFiGANModel :=
  { melInput := fun x => x
  , melLoss := fun x => x
  , generator := fun _ => [[[0, 1, 0]]]
  , discriminators := [("mpd", fun _ => ([0, 1], [[1, 2]]))]
  , stftLoss := fun _ _ => (1, 2)
  , cropLength := some 2 }

/-- A variant of `mW` whose generator returns the wrong shape. -/
def mBadShape : HiFiGANModel :=
  { melInput := fun x => x
  , melLoss := fun x => x
  , generator := fun _ => [[[0, 1]]]
  , discriminators := [("mpd", fun _ => ([0, 1], [[1, 2]]))]
  , stftLoss := fun _ _ => (1, 2)
  , cropLength := some 2 }

/-- A variant of `mW` with an empty discriminator ensemble. -/
def mEmpty : HiFiGANModel :=
  { melInput := fun x => x
  , melLoss := fun x => x
  , generator := fun _ => [[[0, 1, 0]]]
  , discriminators := []
  , stftLoss := fun _ _ => (1, 2)
  , cropLength := none }

/-! ### Helper lemmas -/

lemma foldl_add_map {α : Type _} (f : α → ℚ) (l : List α) (a : ℚ) :
    l.foldl (fun s x => s + f x) a = a + (l.map f).sum := by
  induction l generalizing a with
  | nil => simp
  | cons x t ih => simp [ih (a + f x)]; ring

lemma zip_fst_snd {α β : Type _} (l : List (α × β)) :
    (l.map Prod.fst).zip (l.map Prod.snd) = l := by
  rw [List.zip_map' Prod.fst Prod.snd l]
  simp

lemma zip_self {α : Type _} (l : List α) : l.zip l = l.map (fun x => (x, x)) := by
  simpa using List.zip_map' id id l

lemma zip_take_min {α β : Type _} (l₁ : List α) (l₂ : List β) :
    (l₁.take (min l₁.length l₂.length)).zip (l₂.take (min l₁.length l₂.length)) = l₁.zip l₂ := by
  rw [List.zip_eq_zipWith, List.zip_eq_zipWith, ← List.take_zipWith]
  exact List.take_of_length_le (by simp)

lemma generator_loss_fst (l : List T1) :
    (generator_loss l).1 = (l.map (fun dg => tmean (dg.map fun x => (1 - x) ^ 2))).sum := by
  have h := foldl_add_map (fun dg : T1 => tmean (dg.map fun x => (1 - x) ^ 2)) l 0
  simpa [generator_loss] using h

lemma discriminator_loss_fst (dr dg : List T1) :
    (discriminator_loss dr dg).1 =
      ((dr.zip dg).map
        (fun p => tmean (p.1.map fun x => (1 - x) ^ 2) + tmean (p.2.map fun x => x ^ 2))).sum := by
  have h1 : (fun (loss : ℚ) (p : T1 × T1) =>
        loss + tmean (p.1.map fun x => (1 - x) ^ 2) + tmean (p.2.map fun x => x ^ 2)) =
      (fun loss p =>
        loss + (tmean (p.1.map fun x => (1 - x) ^ 2) + tmean (p.2.map fun x => x ^ 2))) := by
    funext s p
    ring
  have h := foldl_add_map
    (fun p : T1 × T1 => tmean (p.1.map fun x => (1 - x) ^ 2) + tmean (p.2.map fun x => x ^ 2))
    (dr.zip dg) 0
  simpa [discriminator_loss, h1] using h

lemma l1_loss1_self (a : T1) : l1_loss1 a a = 0 := by
  have h : ((a.zip a).map (fun q => |q.1 - q.2|)).sum = 0 := by
    induction a with
    | nil => rfl
    | cons x t ih => simp [ih]
  simp [l1_loss1, tmean, h]

lemma foldl_add_sum (l : List ℚ) : l.foldl (· + ·) 0 = l.sum := by
  simpa using foldl_add_map (fun x : ℚ => x) l 0

lemma backwards_append (l1 l2 : List Event) :
    backwards (l1 ++ l2) = backwards l1 ++ backwards l2 := by
  simp [backwards]

lemma backwards_map_log {α : Type _} (k : α → String) (v : α → ℚ) (l : List α) :
    backwards (l.map (fun x => Event.log (k x) (v x))) = [] := by
  induction l with
  | nil => rfl
  | cons x t ih => simpa [backwards] using ih

lemma stepRest_eq_of_ne (M : HiFiGANModel) (ls lm : ℚ) (ev : List Event) (cs : Option ℕ)
    (a2 f2 m2 : T3) (hn : M.discriminators ≠ []) :
    stepRest M ls lm ev cs a2 f2 m2 =
      { events := ev ++
          M.discriminators.map
            (fun kd => Event.log ("train/generator/adv_" ++ kd.1) (advTerm f2 kd)) ++
          [Event.backward (ls * (5 / 2) + advAll M f2), Event.stepG, Event.zeroGradD] ++
          M.discriminators.map
            (fun kd => Event.log ("train/discriminator/" ++ kd.1) (discTerm a2 f2 kd)) ++
          [Event.backward (discAllOf M a2 f2), Event.stepD,
           Event.log "train/discriminator/all" (discAllOf M a2 f2),
           Event.schedStepG, Event.schedStepD],
        err := none, lossStft := ls, lossMel := lm, cropStart := cs,
        audioC := a2, fakeC := f2, maskC := m2,
        lossAdvAll := advAll M f2, lossGenAll := ls * (5 / 2) + advAll M f2,
        lossDiscAll := discAllOf M a2 f2 } := by
  have hn' : M.discriminators.length ≠ 0 := fun hln => hn (List.length_eq_zero.mp hln)
  simp only [stepRest]
  rw [if_neg hn']
  simp [StepOut.mk.injEq, advAll, discAllOf, List.map_map, Function.comp_def, foldl_add_sum]

lemma stepRest_eq_of_empty (M : HiFiGANModel) (ls lm : ℚ) (ev : List Event) (cs : Option ℕ)
    (a2 f2 m2 : T3) (hn : M.discriminators = []) :
    stepRest M ls lm ev cs a2 f2 m2 =
      { events := ev, err := some Err.zeroDivisionError, lossStft := ls, lossMel := lm,
        cropStart := cs, audioC := a2, fakeC := f2, maskC := m2,
        lossAdvAll := 0, lossGenAll := 0, lossDiscAll := 0 } := by
  simp [stepRest, hn]

lemma training_step_eq_assert1 (M : HiFiGANModel) (b : Batch) (r : ℕ)
    (h1 : ¬ shape3 (fakeOf M b) = shape3 b.audio) :
    training_step M b r =
      { events := [Event.zeroGradG], err := some Err.assertFailed, lossStft := 0,
        lossMel := 0, cropStart := none, audioC := [], fakeC := [], maskC := [],
        lossAdvAll := 0, lossGenAll := 0, lossDiscAll := 0 } := by
  simp only [training_step]
  rw [if_neg (by simpa [fakeOf] using h1)]

lemma training_step_eq_cropfail (M : HiFiGANModel) (b : Batch) (r : ℕ)
    (h1 : shape3 (fakeOf M b) = shape3 b.audio)
    (hc : cropPhase M.cropLength r (audio1Of M b) (fake1Of M b) (maskOf b) = Except.error ()) :
    training_step M b r =
      { events := evPrefix M b, err := some Err.assertFailed, lossStft := lsOf M b,
        lossMel := lmOf M b, cropStart := none, audioC := [], fakeC := [], maskC := [],
        lossAdvAll := 0, lossGenAll := 0, lossDiscAll := 0 } := by
  simp only [audio1Of, fake1Of, fakeOf] at hc
  simp only [training_step]
  rw [if_pos (by simpa [fakeOf] using h1), hc]
  rfl

lemma training_step_eq_ok (M : HiFiGANModel) (b : Batch) (r : ℕ)
    (cs : Option ℕ) (a2 f2 m2 : T3)
    (h1 : shape3 (fakeOf M b) = shape3 b.audio)
    (hc : cropPhase M.cropLength r (audio1Of M b) (fake1Of M b) (maskOf b) =
      Except.ok (cs, a2, f2, m2)) :
    training_step M b r = stepRest M (lsOf M b) (lmOf M b) (evPrefix M b) cs a2 f2 m2 := by
  simp only [audio1Of, fake1Of, fakeOf] at hc
  simp only [training_step]
  rw [if_pos (by simpa [fakeOf] using h1), hc]
  rfl

lemma backwards_nil : backwards [] = [] := rfl

lemma all_not_opt_map_log {α : Type _} (k : α → String) (v : α → ℚ) (l : List α) :
    ((l.map (fun x => Event.log (k x) (v x))).all (fun e => !isOptOrSched e)) = true := by
  induction l with
  | nil => rfl
  | cons x t ih =>
    rw [List.map_cons, List.all_cons, ih]
    rfl

lemma backwards_cons (e : Event) (l : List Event) :
    backwards (e :: l) =
      (match e with | Event.backward v => [v] | _ => []) ++ backwards l := by
  cases e <;> rfl

lemma backwards_stepRest (M : HiFiGANModel) (ls lm : ℚ) (ev : List Event) (cs : Option ℕ)
    (a2 f2 m2 : T3) (hn : M.discriminators ≠ []) :
    backwards ((stepRest M ls lm ev cs a2 f2 m2).events) =
      backwards ev ++ [ls * (5 / 2) + advAll M f2, discAllOf M a2 f2] := by
  rw [stepRest_eq_of_ne M ls lm ev cs a2 f2 m2 hn]
  simp [backwards_append, backwards_map_log, backwards_cons, backwards_nil]

/-! ### Claim theorems: static loss utilities and validation step -/

/-- C6: `validation_step` never emits an optimizer step, scheduler step,
gradient reset, or backward event for any model and batch: optimizer and
scheduler state are untouched by validation. -/
theorem validation_step_no_optimizer_interaction (M : HiFiGANModel) (b : Batch) :
    (validation_step M b).1.all (fun e => !touchesOptState e) = true := by
  simp only [validation_step]
  split
  · rfl
  · rfl

/-- C7: applying the same permutation to the parallel real/generated output
sequences leaves the total of `discriminator_loss` unchanged, and permuting
the outputs passed to `generator_loss` leaves its total unchanged. -/
theorem loss_totals_perm_invariant (p q : List (T1 × T1)) (l l' : List T1)
    (hpq : List.Perm p q) (hll : List.Perm l l') :
    (discriminator_loss (p.map Prod.fst) (p.map Prod.snd)).1 =
      (discriminator_loss (q.map Prod.fst) (q.map Prod.snd)).1 ∧
    (generator_loss l).1 = (generator_loss l').1 := by
  constructor
  · rw [discriminator_loss_fst, discriminator_loss_fst, zip_fst_snd, zip_fst_snd]
    exact (hpq.map _).sum_eq
  · rw [generator_loss_fst, generator_loss_fst]
    exact (hll.map _).sum_eq

/-- C7 witness: a concrete two-discriminator transposition. -/
theorem loss_totals_perm_invariant_witness :
    List.Perm [(([1], [2]) : T1 × T1), ([3], [4])] [([3], [4]), ([1], [2])] ∧
    List.Perm [([1] : T1), [2]] [[2], [1]] ∧
    ((discriminator_loss ([[1], [3]] : List T1) [[2], [4]]).1 =
        (discriminator_loss ([[3], [1]] : List T1) [[4], [2]]).1 ∧
      (generator_loss ([[1], [2]] : List T1)).1 = (generator_loss ([[2], [1]] : List T1)).1) := by
  refine ⟨by decide, by decide, ?_⟩
  exact loss_totals_perm_invariant [([1], [2]), ([3], [4])] [([3], [4]), ([1], [2])]
    [[1], [2]] [[2], [1]] (by decide) (by decide)

/-- C8: `feature_matching_loss` of element-wise equal real/generated
feature-map sequences is exactly 0. -/
theorem feature_matching_loss_self_eq_zero (fm : List T2) :
    feature_matching_loss fm fm = 0 := by
  unfold feature_matching_loss
  apply List.sum_eq_zero
  intro x hx
  rw [List.mem_flatten] at hx
  obtain ⟨li, hli, hxl⟩ := hx
  rw [List.mem_map] at hli
  obtain ⟨p, hp, rfl⟩ := hli
  rw [zip_self, List.mem_map] at hp
  obtain ⟨h2, _, rfl⟩ := hp
  rw [List.mem_map] at hxl
  obtain ⟨q, hq, rfl⟩ := hxl
  rw [zip_self, List.mem_map] at hq
  obtain ⟨z, _, rfl⟩ := hq
  exact l1_loss1_self z

/-- C9: `discriminator_loss` and `feature_matching_loss` silently truncate to
the common length of their two sequence arguments: the result equals the
result on the common-length prefixes, trailing elements of the longer
sequence being ignored (and no error is raised, the functions being total). -/
theorem loss_zip_truncation (dr dg : List T1) (fr fg : List T2) :
    discriminator_loss dr dg =
      discriminator_loss (dr.take (min dr.length dg.length))
        (dg.take (min dr.length dg.length)) ∧
    feature_matching_loss fr fg =
      feature_matching_loss (fr.take (min fr.length fg.length))
        (fg.take (min fr.length fg.length)) := by
  constructor
  · unfold discriminator_loss
    rw [zip_take_min]
  · unfold feature_matching_loss
    rw [zip_take_min]

/-- C1: whenever a training step completes, the backpropagated total
generator loss equals `loss_stft * 2.5` plus the mean adversarial loss: the
sum over the discriminator ensemble of `mean((1 - score_fake) ** 2)` on the
(possibly cropped, masked) fake audio (`fakeC`), divided by the number of
discriminators; and this total is the value passed to `manual_backward`. -/
theorem training_step_total_generator_loss (M : HiFiGANModel) (b : Batch) (r : ℕ)
    (h : (training_step M b r).err = none) :
    (training_step M b r).lossGenAll =
      (training_step M b r).lossStft * (5 / 2) +
        (M.discriminators.map
            (fun kd => tmean ((kd.2 ((training_step M b r).fakeC)).1.map
              (fun x => (1 - x) ^ 2)))).sum /
          (M.discriminators.length : ℚ) ∧
    Event.backward ((training_step M b r).lossGenAll) ∈ (training_step M b r).events := by
  by_cases h1 : shape3 (fakeOf M b) = shape3 b.audio
  · cases hc : cropPhase M.cropLength r (audio1Of M b) (fake1Of M b) (maskOf b) with
    | error e =>
      cases e
      rw [training_step_eq_cropfail M b r h1 hc] at h
      simp at h
    | ok v =>
      obtain ⟨cs, a2, f2, m2⟩ := v
      by_cases hn : M.discriminators = []
      · rw [training_step_eq_ok M b r cs a2 f2 m2 h1 hc,
          stepRest_eq_of_empty M _ _ _ cs a2 f2 m2 hn] at h
        simp at h
      · rw [training_step_eq_ok M b r cs a2 f2 m2 h1 hc,
          stepRest_eq_of_ne M _ _ _ cs a2 f2 m2 hn]
        constructor
        · rfl
        · exact List.mem_append_left _ (List.mem_append_left _
            (List.mem_append_right _ (List.mem_cons_self _ _)))
  · rw [training_step_eq_assert1 M b r h1] at h
    simp at h

/-- C1 witness: the concrete model `mW` and batch `bW` complete a step. -/
theorem training_step_total_generator_loss_witness :
    (training_step mW bW 5).err = none ∧
    ((training_step mW bW 5).lossGenAll =
      (training_step mW bW 5).lossStft * (5 / 2) +
        (mW.discriminators.map
            (fun kd => tmean ((kd.2 ((training_step mW bW 5).fakeC)).1.map
              (fun x => (1 - x) ^ 2)))).sum /
          (mW.discriminators.length : ℚ) ∧
    Event.backward ((training_step mW bW 5).lossGenAll) ∈ (training_step mW bW 5).events) :=
  ⟨by decide, training_step_total_generator_loss mW bW 5 (by decide)⟩

/-- C2: whenever a training step completes, its event trace decomposes as
events without optimizer/scheduler steps, then the generator optimizer step,
then events without optimizer/scheduler steps, then the discriminator
optimizer step, the combined-loss log, and exactly one step of each
learning-rate scheduler, in that order. -/
theorem training_step_ordering (M : HiFiGANModel) (b : Batch) (r : ℕ)
    (h : (training_step M b r).err = none) :
    ∃ l1 l2 v,
      (l1.all fun e => !isOptOrSched e) = true ∧
      (l2.all fun e => !isOptOrSched e) = true ∧
      (training_step M b r).events =
        l1 ++ Event.stepG :: (l2 ++ [Event.stepD, Event.log "train/discriminator/all" v,
          Event.schedStepG, Event.schedStepD]) := by
  by_cases h1 : shape3 (fakeOf M b) = shape3 b.audio
  · cases hc : cropPhase M.cropLength r (audio1Of M b) (fake1Of M b) (maskOf b) with
    | error e =>
      cases e
      rw [training_step_eq_cropfail M b r h1 hc] at h
      simp at h
    | ok v =>
      obtain ⟨cs, a2, f2, m2⟩ := v
      by_cases hn : M.discriminators = []
      · rw [training_step_eq_ok M b r cs a2 f2 m2 h1 hc,
          stepRest_eq_of_empty M _ _ _ cs a2 f2 m2 hn] at h
        simp at h
      · rw [training_step_eq_ok M b r cs a2 f2 m2 h1 hc,
          stepRest_eq_of_ne M _ _ _ cs a2 f2 m2 hn]
        refine ⟨evPrefix M b ++
            M.discriminators.map
              (fun kd => Event.log ("train/generator/adv_" ++ kd.1) (advTerm f2 kd)) ++
            [Event.backward (lsOf M b * (5 / 2) + advAll M f2)],
          Event.zeroGradD ::
            M.discriminators.map
              (fun kd => Event.log ("train/discriminator/" ++ kd.1) (discTerm a2 f2 kd)) ++
            [Event.backward (discAllOf M a2 f2)],
          discAllOf M a2 f2, ?_, ?_, ?_⟩
        · simp only [List.all_append, all_not_opt_map_log]
          rfl
        · simp only [List.all_cons, List.all_append, all_not_opt_map_log]
          rfl
        · simp [evPrefix, List.append_assoc, List.cons_append]
  · rw [training_step_eq_assert1 M b r h1] at h
    simp at h

/-- C2 witness: the concrete model `mW` and batch `bW` complete a step. -/
theorem training_step_ordering_witness :
    (training_step mW bW 5).err = none ∧
    (∃ l1 l2 v,
      (l1.all fun e => !isOptOrSched e) = true ∧
      (l2.all fun e => !isOptOrSched e) = true ∧
      (training_step mW bW 5).events =
        l1 ++ Event.stepG :: (l2 ++ [Event.stepD, Event.log "train/discriminator/all" v,
          Event.schedStepG, Event.schedStepD])) :=
  ⟨by decide, training_step_ordering mW bW 5 (by decide)⟩

/-- C3: on a completed training step with cropping configured and the time
dimension exceeding the crop length, the start index is the external uniform
draw reduced into `[0, time - crop_length)`, the window fits
(`start + crop_length ≤ time`), audio, fake audio and mask are sliced
identically to that window, and all three slices have equal shape. -/
theorem training_step_crop_window (M : HiFiGANModel) (b : Batch) (r : ℕ) (cl : ℕ)
    (h : (training_step M b r).err = none)
    (hcl : M.cropLength = some cl)
    (ht : cl < timeDim (audio1Of M b)) :
    ∃ s, s = r % (timeDim (audio1Of M b) - cl) ∧
      (training_step M b r).cropStart = some s ∧
      s < timeDim (audio1Of M b) - cl ∧
      s + cl ≤ timeDim (audio1Of M b) ∧
      (training_step M b r).audioC = slice3 s cl (audio1Of M b) ∧
      (training_step M b r).fakeC = slice3 s cl (fake1Of M b) ∧
      (training_step M b r).maskC = slice3 s cl (maskOf b) ∧
      shape3 ((training_step M b r).audioC) = shape3 ((training_step M b r).fakeC) ∧
      shape3 ((training_step M b r).fakeC) = shape3 ((training_step M b r).maskC) := by
  by_cases h1 : shape3 (fakeOf M b) = shape3 b.audio
  · cases hc : cropPhase M.cropLength r (audio1Of M b) (fake1Of M b) (maskOf b) with
    | error e =>
      cases e
      rw [training_step_eq_cropfail M b r h1 hc] at h
      simp at h
    | ok v =>
      obtain ⟨cs, a2, f2, m2⟩ := v
      have hc' := hc
      rw [hcl] at hc'
      simp only [cropPhase] at hc'
      rw [if_pos ht] at hc'
      by_cases hs : shape3 (slice3 (r % (timeDim (audio1Of M b) - cl)) cl (audio1Of M b)) =
            shape3 (slice3 (r % (timeDim (audio1Of M b) - cl)) cl (fake1Of M b)) ∧
          shape3 (slice3 (r % (timeDim (audio1Of M b) - cl)) cl (fake1Of M b)) =
            shape3 (slice3 (r % (timeDim (audio1Of M b) - cl)) cl (maskOf b))
      · rw [if_pos hs] at hc'
        simp only [Except.ok.injEq, Prod.mk.injEq] at hc'
        obtain ⟨e1, e2, e3, e4⟩ := hc'
        subst e1
        subst e2
        subst e3
        subst e4
        by_cases hn : M.discriminators = []
        · rw [training_step_eq_ok M b r _ _ _ _ h1 hc,
            stepRest_eq_of_empty M _ _ _ _ _ _ _ hn] at h
          simp at h
        · rw [training_step_eq_ok M b r _ _ _ _ h1 hc,
            stepRest_eq_of_ne M _ _ _ _ _ _ _ hn]
          have hmod : r % (timeDim (audio1Of M b) - cl) < timeDim (audio1Of M b) - cl :=
            Nat.mod_lt r (by omega)
          exact ⟨r % (timeDim (audio1Of M b) - cl), rfl, rfl, hmod, by omega,
            rfl, rfl, rfl, hs.1, hs.2⟩
      · rw [if_neg hs] at hc'
        exact absurd hc' (by simp)
  · rw [training_step_eq_assert1 M b r h1] at h
    simp at h

/-- C3 witness: `mW` with crop length 2 on a time dimension of 3. -/
theorem training_step_crop_window_witness :
    (training_step mW bW 5).err = none ∧
    mW.cropLength = some 2 ∧
    2 < timeDim (audio1Of mW bW) ∧
    (∃ s, s = 5 % (timeDim (audio1Of mW bW) - 2) ∧
      (training_step mW bW 5).cropStart = some s ∧
      s < timeDim (audio1Of mW bW) - 2 ∧
      s + 2 ≤ timeDim (audio1Of mW bW) ∧
      (training_step mW bW 5).audioC = slice3 s 2 (audio1Of mW bW) ∧
      (training_step mW bW 5).fakeC = slice3 s 2 (fake1Of mW bW) ∧
      (training_step mW bW 5).maskC = slice3 s 2 (maskOf bW) ∧
      shape3 ((training_step mW bW 5).audioC) = shape3 ((training_step mW bW 5).fakeC) ∧
      shape3 ((training_step mW bW 5).fakeC) = shape3 ((training_step mW bW 5).maskC)) :=
  ⟨by decide, rfl, by decide,
    training_step_crop_window mW bW 5 2 (by decide) rfl (by decide)⟩

/-- C4: the mel loss is monitoring-only: replacing the loss mel transform
changes no backpropagated value (the backward event values of the step are
unchanged), and on a completed step the mel loss is logged while the
backpropagated total depends only on the STFT loss and the averaged
adversarial loss. -/
theorem training_step_mel_monitoring_only (M : HiFiGANModel) (g' : T2 → T2)
    (b : Batch) (r : ℕ) :
    backwards ((training_step { M with melLoss := g' } b r).events) =
      backwards ((training_step M b r).events) ∧
    ((training_step M b r).err = none →
      Event.log "train/generator/mel" ((training_step M b r).lossMel) ∈
        (training_step M b r).events ∧
      (training_step M b r).lossGenAll =
        (training_step M b r).lossStft * (5 / 2) + (training_step M b r).lossAdvAll) := by
  constructor
  · by_cases h1 : shape3 (fakeOf M b) = shape3 b.audio
    · cases hc : cropPhase M.cropLength r (audio1Of M b) (fake1Of M b) (maskOf b) with
      | error e =>
        cases e
        rw [training_step_eq_cropfail M b r h1 hc,
          training_step_eq_cropfail { M with melLoss := g' } b r h1 hc]
        rfl
      | ok v =>
        obtain ⟨cs, a2, f2, m2⟩ := v
        rw [training_step_eq_ok M b r cs a2 f2 m2 h1 hc,
          training_step_eq_ok { M with melLoss := g' } b r cs a2 f2 m2 h1 hc]
        by_cases hn : M.discriminators = []
        · rw [stepRest_eq_of_empty M _ _ _ cs a2 f2 m2 hn,
            stepRest_eq_of_empty { M with melLoss := g' } _ _ _ cs a2 f2 m2 hn]
          rfl
        · rw [backwards_stepRest M _ _ _ cs a2 f2 m2 hn,
            backwards_stepRest { M with melLoss := g' } _ _ _ cs a2 f2 m2 hn]
          rfl
    · rw [training_step_eq_assert1 M b r h1,
        training_step_eq_assert1 { M with melLoss := g' } b r h1]
  · intro h
    by_cases h1 : shape3 (fakeOf M b) = shape3 b.audio
    · cases hc : cropPhase M.cropLength r (audio1Of M b) (fake1Of M b) (maskOf b) with
      | error e =>
        cases e
        rw [training_step_eq_cropfail M b r h1 hc] at h
        simp at h
      | ok v =>
        obtain ⟨cs, a2, f2, m2⟩ := v
        by_cases hn : M.discriminators = []
        · rw [training_step_eq_ok M b r cs a2 f2 m2 h1 hc,
            stepRest_eq_of_empty M _ _ _ cs a2 f2 m2 hn] at h
          simp at h
        · rw [training_step_eq_ok M b r cs a2 f2 m2 h1 hc,
            stepRest_eq_of_ne M _ _ _ cs a2 f2 m2 hn]
          refine ⟨?_, rfl⟩
          exact List.mem_append_left _ (List.mem_append_left _ (List.mem_append_left _
            (List.mem_append_left _ (List.mem_cons_of_mem _ (List.mem_cons_of_mem _
              (List.mem_cons_self _ _))))))
    · rw [training_step_eq_assert1 M b r h1] at h
      simp at h

/-- C4 witness: a completed step on `mW`, with an arbitrary replacement mel
transform. -/
theorem training_step_mel_monitoring_only_witness :
    backwards ((training_step { mW with melLoss := fun _ => [] } bW 5).events) =
      backwards ((training_step mW bW 5).events) ∧
    ((training_step mW bW 5).err = none ∧
      (Event.log "train/generator/mel" ((training_step mW bW 5).lossMel) ∈
        (training_step mW bW 5).events ∧
      (training_step mW bW 5).lossGenAll =
        (training_step mW bW 5).lossStft * (5 / 2) + (training_step mW bW 5).lossAdvAll)) :=
  ⟨(training_step_mel_monitoring_only mW (fun _ => []) bW 5).1,
    by decide,
    (training_step_mel_monitoring_only mW (fun _ => []) bW 5).2 (by decide)⟩

/-- C5: a generator-output shape mismatch, or a crop-phase shape mismatch,
makes the training step abort with an assertion failure; any step that ends
in an assertion failure has executed neither optimizer step. -/
theorem training_step_assert_aborts (M : HiFiGANModel) (b : Batch) (r : ℕ) :
    (¬ shape3 (fakeOf M b) = shape3 b.audio →
      (training_step M b r).err = some Err.assertFailed) ∧
    (shape3 (fakeOf M b) = shape3 b.audio →
      cropPhase M.cropLength r (audio1Of M b) (fake1Of M b) (maskOf b) = Except.error () →
      (training_step M b r).err = some Err.assertFailed) ∧
    ((training_step M b r).err = some Err.assertFailed →
      Event.stepG ∉ (training_step M b r).events ∧
      Event.stepD ∉ (training_step M b r).events) := by
  refine ⟨?_, ?_, ?_⟩
  · intro h1
    rw [training_step_eq_assert1 M b r h1]
  · intro h1 hc
    rw [training_step_eq_cropfail M b r h1 hc]
  · intro herr
    by_cases h1 : shape3 (fakeOf M b) = shape3 b.audio
    · cases hc : cropPhase M.cropLength r (audio1Of M b) (fake1Of M b) (maskOf b) with
      | error e =>
        cases e
        rw [training_step_eq_cropfail M b r h1 hc]
        constructor
        · simp [evPrefix]
        · simp [evPrefix]
      | ok v =>
        obtain ⟨cs, a2, f2, m2⟩ := v
        rw [training_step_eq_ok M b r cs a2 f2 m2 h1 hc] at herr
        by_cases hn : M.discriminators = []
        · rw [stepRest_eq_of_empty M _ _ _ cs a2 f2 m2 hn] at herr
          simp at herr
        · rw [stepRest_eq_of_ne M _ _ _ cs a2 f2 m2 hn] at herr
          simp at herr
    · rw [training_step_eq_assert1 M b r h1]
      constructor
      · simp
      · simp

/-- C5 witness: `mBadShape` returns a wrongly shaped waveform: the step
aborts with an assertion failure and neither optimizer step occurs. -/
theorem training_step_assert_aborts_witness :
    (¬ shape3 (fakeOf mBadShape bW) = shape3 bW.audio) ∧
    (training_step mBadShape bW 0).err = some Err.assertFailed ∧
    (Event.stepG ∉ (training_step mBadShape bW 0).events ∧
      Event.stepD ∉ (training_step mBadShape bW 0).events) :=
  ⟨by decide,
    (training_step_assert_aborts mBadShape bW 0).1 (by decide),
    (training_step_assert_aborts mBadShape bW 0).2.2
      ((training_step_assert_aborts mBadShape bW 0).1 (by decide))⟩

/-- C10: both averaging divisions divide by the number of discriminators;
with a non-empty ensemble the step never raises a division-by-zero error,
while with an empty ensemble the step never completes: unless an assertion
failed first, it raises `ZeroDivisionError` at the first division, before
any backward call or optimizer step. -/
theorem training_step_divides_by_discriminator_count (M : HiFiGANModel) (b : Batch) (r : ℕ) :
    (M.discriminators = [] →
      ((training_step M b r).err = some Err.assertFailed ∨
        (training_step M b r).err = some Err.zeroDivisionError) ∧
      Event.stepG ∉ (training_step M b r).events ∧
      Event.stepD ∉ (training_step M b r).events ∧
      backwards ((training_step M b r).events) = []) ∧
    (M.discriminators ≠ [] →
      (training_step M b r).err ≠ some Err.zeroDivisionError) ∧
    ((training_step M b r).err = none →
      (training_step M b r).lossAdvAll =
        (M.discriminators.map (advTerm ((training_step M b r).fakeC))).sum /
          (M.discriminators.length : ℚ) ∧
      (training_step M b r).lossDiscAll =
        (M.discriminators.map
            (discTerm ((training_step M b r).audioC) ((training_step M b r).fakeC))).sum /
          (M.discriminators.length : ℚ)) := by
  refine ⟨?_, ?_, ?_⟩
  · intro hn
    by_cases h1 : shape3 (fakeOf M b) = shape3 b.audio
    · cases hc : cropPhase M.cropLength r (audio1Of M b) (fake1Of M b) (maskOf b) with
      | error e =>
        cases e
        rw [training_step_eq_cropfail M b r h1 hc]
        exact ⟨Or.inl rfl, by simp [evPrefix], by simp [evPrefix], rfl⟩
      | ok v =>
        obtain ⟨cs, a2, f2, m2⟩ := v
        rw [training_step_eq_ok M b r cs a2 f2 m2 h1 hc,
          stepRest_eq_of_empty M _ _ _ cs a2 f2 m2 hn]
        exact ⟨Or.inr rfl, by simp [evPrefix], by simp [evPrefix], rfl⟩
    · rw [training_step_eq_assert1 M b r h1]
      exact ⟨Or.inl rfl, by simp, by simp, rfl⟩
  · intro hn
    by_cases h1 : shape3 (fakeOf M b) = shape3 b.audio
    · cases hc : cropPhase M.cropLength r (audio1Of M b) (fake1Of M b) (maskOf b) with
      | error e =>
        cases e
        rw [training_step_eq_cropfail M b r h1 hc]
        simp
      | ok v =>
        obtain ⟨cs, a2, f2, m2⟩ := v
        rw [training_step_eq_ok M b r cs a2 f2 m2 h1 hc,
          stepRest_eq_of_ne M _ _ _ cs a2 f2 m2 hn]
        simp
    · rw [training_step_eq_assert1 M b r h1]
      simp
  · intro h
    by_cases h1 : shape3 (fakeOf M b) = shape3 b.audio
    · cases hc : cropPhase M.cropLength r (audio1Of M b) (fake1Of M b) (maskOf b) with
      | error e =>
        cases e
        rw [training_step_eq_cropfail M b r h1 hc] at h
        simp at h
      | ok v =>
        obtain ⟨cs, a2, f2, m2⟩ := v
        by_cases hn : M.discriminators = []
        · rw [training_step_eq_ok M b r cs a2 f2 m2 h1 hc,
            stepRest_eq_of_empty M _ _ _ cs a2 f2 m2 hn] at h
          simp at h
        · rw [training_step_eq_ok M b r cs a2 f2 m2 h1 hc,
            stepRest_eq_of_ne M _ _ _ cs a2 f2 m2 hn]
          exact ⟨rfl, rfl⟩
    · rw [training_step_eq_assert1 M b r h1] at h
      simp at h

/-- C10 witness: the empty-ensemble model `mEmpty` fails with a
division-by-zero before any optimizer step; the non-empty `mW` never raises
one. -/
theorem training_step_divides_by_discriminator_count_witness :
    (mEmpty.discriminators = [] ∧
      ((training_step mEmpty bW 0).err = some Err.assertFailed ∨
        (training_step mEmpty bW 0).err = some Err.zeroDivisionError) ∧
      Event.stepG ∉ (training_step mEmpty bW 0).events ∧
      Event.stepD ∉ (training_step mEmpty bW 0).events ∧
      backwards ((training_step mEmpty bW 0).events) = []) ∧
    (mW.discriminators ≠ [] ∧
      (training_step mW bW 0).err ≠ some Err.zeroDivisionError) ∧
    ((training_step mW bW 0).err = none ∧
      ((training_step mW bW 0).lossAdvAll =
        (mW.discriminators.map (advTerm ((training_step mW bW 0).fakeC))).sum /
          (mW.discriminators.length : ℚ) ∧
      (training_step mW bW 0).lossDiscAll =
        (mW.discriminators.map
            (discTerm ((training_step mW bW 0).audioC) ((training_step mW bW 0).fakeC))).sum /
          (mW.discriminators.length : ℚ))) :=
  ⟨⟨rfl, (training_step_divides_by_discriminator_count mEmpty bW 0).1 rfl⟩,
    ⟨fun hemp => List.noConfusion hemp,
      (training_step_divides_by_discriminator_count mW bW 0).2.1
        (fun hemp => List.noConfusion hemp)⟩,
    ⟨by decide,
      (training_step_divides_by_discriminator_count mW bW 0).2.2 (by decide)⟩⟩

end FishVocoder
